import Mathlib

/-!
Verification of the transformation-composition engine of
`src/TFunction.py` (Modular Function Transformer).

The script builds sympy expressions in one symbol `x`.  We embed the
expression trees the script constructs, the evaluating arithmetic it
performs on them (sympy's `-`, `*`, unary negation), the unevaluated
`sp.Mul(..., evaluate=False)` / `sp.Add(..., evaluate=False)` nodes,
numeric sampling through `lambdify` + `np.real`, and the y-range
selection of lines 104-113.
-/

namespace TFunction

/-- Sympy-like symbolic expression tree over the single symbol `x`.
`add`/`mul`/`pow` are plain (possibly unevaluated) nodes, as produced by
`sp.Add`/`sp.Mul` with `evaluate=False` or by parsing; `I` is sympy's
imaginary unit.  Rational constants stand for the exact numeric leaves. -/
inductive Expr where
  | num : ℚ → Expr
  | I : Expr
  | var : Expr
  | add : Expr → Expr → Expr
  | mul : Expr → Expr → Expr
  | pow : Expr → Expr → Expr
deriving DecidableEq, Repr

/-- `base_expr.subs(x, input_expr)` (line 67): replace every occurrence of
the symbol `x` by the replacement expression.  Sympy re-evaluates after
substitution; that coincides with this structural substitution at every
use made below (the replacement is `x` itself, or the identical call
appears on both sides of an equality), because the replacements this
program builds keep the symbol `x` and create no reducible numeric
node. -/
def subs : Expr → Expr → Expr
  | .num q, _ => .num q
  | .I, _ => .I
  | .var, r => r
  | .add e1 e2, r => .add (subs e1 r) (subs e2 r)
  | .mul e1 e2, r => .mul (subs e1 r) (subs e2 r)
  | .pow e1 e2, r => .pow (subs e1 r) (subs e2 r)

/-- Sympy's evaluating subtraction of an exact numeric constant (a
Python int, as the challenge of line 125 draws), `t - h` (lines 61 and
135): subtracting the exact zero is the identity (the coefficient `is
S.Zero`), otherwise sympy forms `Add(e, -h)`.  The slider path supplies
Python floats and is modelled by `ssub_float` instead. -/
def ssub (e : Expr) (c : ℚ) : Expr :=
  if c = 0 then e else .add e (.num (-c))

/-- Sympy's evaluating multiplication by an exact numeric constant (a
Python int or exact rational, as the challenge of lines 127-128 draws),
`b * t` (lines 63 and 137): the exact one is the identity (`is S.One`),
the exact zero collapses to zero, a numeric coefficient distributes over
an `Add` (sympy's automatic `2*(1+a) -> 2 + 2*a` distribution in
`Mul.flatten`), numeric leaves and a leading numeric coefficient of a
`Mul` fold, and otherwise sympy forms `Mul(c, e)`.  The slider path
supplies Python floats and is modelled by `smul_float` instead. -/
def smul (c : ℚ) (e : Expr) : Expr :=
  if c = 1 then e
  else if c = 0 then .num 0
  else match e with
    | .num d => .num (c * d)
    | .add e1 e2 => .add (smul c e1) (smul c e2)
    | .mul (.num d) e2 => .mul (.num (c * d)) e2
    | _ => .mul (.num c) e

/-- Sympy's evaluating subtraction of a Float constant: the sliders of
lines 43-54 return Python floats, and a Float is never the singleton
`S.Zero`, so `x - 0.0` stays an `Add` — no identity folding ever
happens on this path. -/
def ssub_float (e : Expr) (c : ℚ) : Expr :=
  .add e (.num (-c))

/-- Sympy's evaluating multiplication by a Float constant (the slider
values of lines 43-54): a Float coefficient is never the singleton
`S.One`, so `1.0*x` stays unfolded; distribution over `Add` and folding
into numeric leaves and leading `Mul` coefficients still apply (they
hold for any finite Number).  The slider keeps `b` in `[0.1, 5.0]`, so a
zero Float coefficient never occurs and is not modelled. -/
def smul_float (c : ℚ) (e : Expr) : Expr :=
  match e with
  | .num d => .num (c * d)
  | .add e1 e2 => .add (smul_float c e1) (smul_float c e2)
  | .mul (.num d) e2 => .mul (.num (c * d)) e2
  | _ => .mul (.num c) e

/-- Sympy's evaluating unary negation, `-input_expr` (lines 65 and 139):
negation distributes over `Add`, folds into numeric leaves and leading
numeric coefficients, and otherwise forms `Mul(-1, e)`. -/
def sneg : Expr → Expr
  | .num q => .num (-q)
  | .add e1 e2 => .add (sneg e1) (sneg e2)
  | .mul (.num c) e2 => .mul (.num (-c)) e2
  | e => .mul (.num (-1)) e

/-- The six transformation enable-flags and their slider parameters
(lines 42-56).  A disabled flag leaves the slider at its identity value,
but the build of the transformed expression only consults the flags. -/
structure TransformationSet where
  apply_hshift : Bool
  h : ℚ
  apply_hstretch : Bool
  b : ℚ
  apply_reflect_y : Bool
  apply_vshift : Bool
  k : ℚ
  apply_vstretch : Bool
  a : ℚ
  apply_reflect_x : Bool
deriving DecidableEq, Repr

/-- The substitution target built in lines 59-65 when the parameters are
exact numbers (Python ints, the type the challenge generator draws —
relevant to the comparison of section 4.5): start from `x`, then shift
(`t - h`), stretch (`b * t`), reflect over Y (`-t`), each applied only
when its flag is set.  Negation (`-t`) always uses the exact
`Integer(-1)` regardless of parameter types. -/
def input_expr (ts : TransformationSet) : Expr :=
  let t := Expr.var
  let t := if ts.apply_hshift then ssub t ts.h else t
  let t := if ts.apply_hstretch then smul ts.b t else t
  if ts.apply_reflect_y then sneg t else t

/-- The transformed expression of lines 67-74 over the exact-parameter
target: substitute the target into the base, then vertical stretch
`sp.Mul(a, g, evaluate=False)`, reflect over X
`sp.Mul(-1, g, evaluate=False)`, vertical shift
`sp.Add(g, k, evaluate=False)`, each applied only when its flag is set.
The vertical nodes are unevaluated, so they are the same trees for int
and float parameters. -/
def transformed_expr (base : Expr) (ts : TransformationSet) : Expr :=
  let g := subs base (input_expr ts)
  let g := if ts.apply_vstretch then Expr.mul (Expr.num ts.a) g else g
  let g := if ts.apply_reflect_x then Expr.mul (Expr.num (-1)) g else g
  if ts.apply_vshift then Expr.add g (Expr.num ts.k) else g

/-- The substitution target of lines 59-65 as the interactive app runs
them: the sliders of lines 43-54 supply Python floats, so the evaluated
subtraction and multiplication never fold identity values
(`x - 0.0` and `1.0*x` stay). -/
def input_expr_float (ts : TransformationSet) : Expr :=
  let t := Expr.var
  let t := if ts.apply_hshift then ssub_float t ts.h else t
  let t := if ts.apply_hstretch then smul_float ts.b t else t
  if ts.apply_reflect_y then sneg t else t

/-- The transformed expression of lines 67-74 as the interactive app
runs them, over the float-parameter target; the vertical
`evaluate=False` nodes are type-independent. -/
def transformed_expr_float (base : Expr) (ts : TransformationSet) : Expr :=
  let g := subs base (input_expr_float ts)
  let g := if ts.apply_vstretch then Expr.mul (Expr.num ts.a) g else g
  let g := if ts.apply_reflect_x then Expr.mul (Expr.num (-1)) g else g
  if ts.apply_vshift then Expr.add g (Expr.num ts.k) else g

/-- The hidden parameter draw of the challenge section (lines 125-130). -/
structure ChallengeParameters where
  true_h : ℚ
  true_k : ℚ
  true_a : ℚ
  true_b : ℚ
  reflect_x : Bool
  reflect_y : Bool
deriving DecidableEq, Repr

/-- The challenge substitution target of lines 133-139: the same
evaluated operations as lines 59-65, but guarded by comparisons of the
drawn value with its identity value instead of by enable-flags.  The
drawn `h` is an int and the drawn `b` is the int 1 (skipped by its
guard) or the float 0.5, so the exact operations are faithful here: the
guards make every identity fold unreachable, and off the identities the
exact and Float behaviors agree. -/
def challenge_input (p : ChallengeParameters) : Expr :=
  let t := Expr.var
  let t := if p.true_h ≠ 0 then ssub t p.true_h else t
  let t := if p.true_b ≠ 1 then smul p.true_b t else t
  if p.reflect_y then sneg t else t

/-- The challenge expression of lines 141-147: same unevaluated vertical
steps as lines 69-74, guarded by value-vs-identity comparisons. -/
def challenge_expr (base : Expr) (p : ChallengeParameters) : Expr :=
  let g := subs base (challenge_input p)
  let g := if p.true_a ≠ 1 then Expr.mul (Expr.num p.true_a) g else g
  let g := if p.reflect_x then Expr.mul (Expr.num (-1)) g else g
  if p.true_k ≠ 0 then Expr.add g (Expr.num p.true_k) else g

/-- The transformation set that enables all six transformations exactly
when the drawn challenge value differs from that transformation's
identity value (0 for shifts, 1 for stretches, the drawn boolean for
reflections). -/
def challenge_ts (p : ChallengeParameters) : TransformationSet where
  apply_hshift := decide (p.true_h ≠ 0)
  h := p.true_h
  apply_hstretch := decide (p.true_b ≠ 1)
  b := p.true_b
  apply_reflect_y := p.reflect_y
  apply_vshift := decide (p.true_k ≠ 0)
  k := p.true_k
  apply_vstretch := decide (p.true_a ≠ 1)
  a := p.true_a
  apply_reflect_x := p.reflect_x

/-- The transformation set with every flag enabled and the drawn
challenge values as parameters. -/
def all_enabled_ts (p : ChallengeParameters) : TransformationSet where
  apply_hshift := true
  h := p.true_h
  apply_hstretch := true
  b := p.true_b
  apply_reflect_y := p.reflect_y
  apply_vshift := true
  k := p.true_k
  apply_vstretch := true
  a := p.true_a
  apply_reflect_x := p.reflect_x

/-- Nonnegative integer power of a complex number given as a pair of
exact rationals (real part, imaginary part). -/
def cpow_nat (z : ℚ × ℚ) : Nat → ℚ × ℚ
  | 0 => (1, 0)
  | n + 1 =>
    let w := cpow_nat z n
    (z.1 * w.1 - z.2 * w.2, z.1 * w.2 + z.2 * w.1)

/-- Integer power of a complex number; a negative power of zero is the
non-finite result `none` (numpy produces `inf`/`nan` there). -/
def czpow (z : ℚ × ℚ) (n : ℤ) : Option (ℚ × ℚ) :=
  if 0 ≤ n then some (cpow_nat z n.toNat)
  else
    let w := cpow_nat z (Int.toNat (-n))
    let d := w.1 * w.1 + w.2 * w.2
    if d = 0 then none else some (w.1 / d, -w.2 / d)

/-- Numeric evaluation of an expression at a real grid point, as
performed by the function `sp.lambdify(x, expr, modules=["numpy"])`
produces (lines 85-86).  The value is a complex pair of exact rationals;
`none` stands for a non-finite IEEE result (`inf` or `nan`), which is
treated as absorbing, and exponents that are not exact integers (whose
real-arithmetic results are irrational in general) are likewise mapped to
the non-finite tag. -/
def evalC : Expr → ℚ → Option (ℚ × ℚ)
  | .num q, _ => some (q, 0)
  | .I, _ => some (0, 1)
  | .var, v => some (v, 0)
  | .add e1 e2, v => do
    let z1 ← evalC e1 v
    let z2 ← evalC e2 v
    some (z1.1 + z2.1, z1.2 + z2.2)
  | .mul e1 e2, v => do
    let z1 ← evalC e1 v
    let z2 ← evalC e2 v
    some (z1.1 * z2.1 - z1.2 * z2.2, z1.1 * z2.2 + z1.2 * z2.1)
  | .pow e1 e2, v => do
    let zb ← evalC e1 v
    let ze ← evalC e2 v
    if ze.2 = 0 ∧ ze.1.den = 1 then czpow zb ze.1.num else none

/-- A sampled y-value: a finite real, or `none` for a non-finite entry
(infinity or not-a-number). -/
abbrev NumVal := Option ℚ

/-- Numeric sampling of lines 86-88: evaluate elementwise over the grid
and keep the real component (`np.real`); non-finite results stay
non-finite.  This is a total function: no grid point raises. -/
def sample (e : Expr) (xs : List ℚ) : List NumVal :=
  xs.map (fun v => (evalC e v).map Prod.fst)

/-- The two plotted series of lines 85-88: the base curve is sampled from
the original base expression, the transformed curve from the composed
expression. -/
def plot_series (base : Expr) (ts : TransformationSet) (xs : List ℚ) :
    List NumVal × List NumVal :=
  (sample base xs, sample (transformed_expr base ts) xs)

/-- Lines 105-106: concatenate the two series and keep only the finite
entries. -/
def finite_y (ya yb : List NumVal) : List ℚ :=
  (ya ++ yb).filterMap id

/-- The y-range selection of lines 108-113: fallback `(-20, 20)` when no
finite value remains, otherwise pad `[min, max]` by a tenth of the spread,
or by 1 when the spread is zero. -/
def compute_y_range (ya yb : List NumVal) : ℚ × ℚ :=
  match finite_y ya yb with
  | [] => (-20, 20)
  | f :: rest =>
    let ymin := rest.foldl min f
    let ymax := rest.foldl max f
    let padding := if ymax ≠ ymin then (ymax - ymin) * (1 / 10) else 1
    (ymin - padding, ymax + padding)

/-- Textual rendition of a rational constant. -/
def renderQ (q : ℚ) : String :=
  if q.den = 1 then toString q.num
  else toString q.num ++ "/" ++ toString q.den

/-- Structure-faithful textual rendering of an expression, standing in
for the typeset display `sp.latex(expr)` of lines 78 and 149: distinct
expression trees built by this program render distinctly, and an
unevaluated identity node (`1*f`, `g + 0`) is visible in the output. -/
def render : Expr → String
  | .num q => renderQ q
  | .I => "I"
  | .var => "x"
  | .add e1 e2 => "(" ++ render e1 ++ " + " ++ render e2 ++ ")"
  | .mul e1 e2 => "(" ++ render e1 ++ "*" ++ render e2 ++ ")"
  | .pow e1 e2 => "(" ++ render e1 ++ "**" ++ render e2 ++ ")"

/-- Tokens of the textual function input. -/
inductive Tok where
  | num : ℚ → Tok
  | id : String → Tok
  | plus : Tok
  | minus : Tok
  | star : Tok
  | dstar : Tok
  | slash : Tok
  | lpar : Tok
  | rpar : Tok
deriving DecidableEq, Repr

/-- The two user-facing error kinds of the boundary: invalid function
text, or a symbol other than the declared variable. -/
inductive ParseError where
  | invalid : ParseError
  | unknownSymbol : String → ParseError
deriving DecidableEq, Repr

/-- Consume a run of digits, accumulating the numeral value. -/
def takeDigits (acc : Nat) : List Char → Nat × List Char
  | c :: r => if c.isDigit then takeDigits (acc * 10 + (c.toNat - 48)) r else (acc, c :: r)
  | [] => (acc, [])

/-- Consume a run of letters, accumulating the identifier. -/
def takeAlpha (acc : String) : List Char → String × List Char
  | c :: r => if c.isAlpha then takeAlpha (acc.push c) r else (acc, c :: r)
  | [] => (acc, [])

/-- Tokenizer for the textual function input; `none` on a character that
does not belong to an algebraic expression. -/
def lexAux : Nat → List Char → Option (List Tok)
  | _, [] => some []
  | 0, _ :: _ => none
  | fuel + 1, c :: rest =>
    if c = ' ' then lexAux fuel rest
    else if c.isDigit then
      let p := takeDigits (c.toNat - 48) rest
      (lexAux fuel p.2).map (fun l => Tok.num (p.1 : ℚ) :: l)
    else if c.isAlpha then
      let p := takeAlpha (String.singleton c) rest
      (lexAux fuel p.2).map (fun l => Tok.id p.1 :: l)
    else if c = '*' then
      match rest with
      | '*' :: r2 => (lexAux fuel r2).map (fun l => Tok.dstar :: l)
      | _ => (lexAux fuel rest).map (fun l => Tok.star :: l)
    else if c = '+' then (lexAux fuel rest).map (fun l => Tok.plus :: l)
    else if c = '-' then (lexAux fuel rest).map (fun l => Tok.minus :: l)
    else if c = '/' then (lexAux fuel rest).map (fun l => Tok.slash :: l)
    else if c = '(' then (lexAux fuel rest).map (fun l => Tok.lpar :: l)
    else if c = ')' then (lexAux fuel rest).map (fun l => Tok.rpar :: l)
    else none

/-- Tokenize the input text. -/
def tokenize (s : String) : Option (List Tok) :=
  lexAux s.length s.data

/-- Modelled from the spec: recursive-descent recognition of "a valid
algebraic expression in the declared variable" (section 4.1); the actual
parsing is the library call `sp.sympify` at line 32, which is not part of
this repository.  Grammar levels: 0 sums, 1 sum continuation, 2 products,
3 product continuation, 4 signed powers, 6 atoms.  Division `a/b` becomes
`a * b**(-1)` and subtraction becomes addition of the negation, as in
sympy; an identifier other than `x` is an unknown symbol. -/
def pstep : Nat → Nat → Expr → List Tok → Except ParseError (Expr × List Tok)
  | 0, _, _, _ => .error .invalid
  | fuel + 1, 0, _, ts => do
    let p ← pstep fuel 2 (.num 0) ts
    pstep fuel 1 p.1 p.2
  | fuel + 1, 1, acc, ts =>
    match ts with
    | .plus :: r => do
      let p ← pstep fuel 2 (.num 0) r
      pstep fuel 1 (.add acc p.1) p.2
    | .minus :: r => do
      let p ← pstep fuel 2 (.num 0) r
      pstep fuel 1 (.add acc (sneg p.1)) p.2
    | _ => .ok (acc, ts)
  | fuel + 1, 2, _, ts => do
    let p ← pstep fuel 4 (.num 0) ts
    pstep fuel 3 p.1 p.2
  | fuel + 1, 3, acc, ts =>
    match ts with
    | .star :: r => do
      let p ← pstep fuel 4 (.num 0) r
      pstep fuel 3 (.mul acc p.1) p.2
    | .slash :: r => do
      let p ← pstep fuel 4 (.num 0) r
      pstep fuel 3 (.mul acc (.pow p.1 (.num (-1)))) p.2
    | _ => .ok (acc, ts)
  | fuel + 1, 4, _, ts =>
    match ts with
    | .minus :: r => do
      let p ← pstep fuel 4 (.num 0) r
      .ok (sneg p.1, p.2)
    | _ => do
      let p ← pstep fuel 6 (.num 0) ts
      match p.2 with
      | .dstar :: r2 => do
        let q ← pstep fuel 4 (.num 0) r2
        .ok (.pow p.1 q.1, q.2)
      | _ => .ok (p.1, p.2)
  | fuel + 1, 6, _, ts =>
    match ts with
    | .num q :: r => .ok (.num q, r)
    | .id s :: r => if s = "x" then .ok (.var, r) else .error (.unknownSymbol s)
    | .lpar :: r => do
      let p ← pstep fuel 0 (.num 0) r
      match p.2 with
      | .rpar :: r3 => .ok (p.1, r3)
      | _ => .error .invalid
    | _ => .error .invalid
  | _ + 1, _, _, _ => .error .invalid

/-- Modelled from the spec: `parse(text) -> Expression` of section 4.1
(the repository delegates to `sp.sympify` at line 32).  Fails exactly on
text the grammar rejects: malformed syntax, stray characters, trailing
tokens, empty input, or an unknown symbol. -/
def parse (s : String) : Except ParseError Expr :=
  match tokenize s with
  | none => .error .invalid
  | some [] => .error .invalid
  | some ts =>
    match pstep (4 * ts.length + 8) 0 (.num 0) ts with
    | .error e => .error e
    | .ok (e, []) => .ok e
    | .ok (_, _ :: _) => .error .invalid

/-- Outcome of one interaction: either halted at the boundary with a
visible error and no chart data, or a rendered result. -/
inductive AppOutcome where
  | halted : ParseError → AppOutcome
  | rendered : String → List NumVal → List NumVal → ℚ × ℚ → AppOutcome
deriving DecidableEq

/-- The per-interaction flow of lines 31-35 and 59-113: parse the text; on
failure report the error and stop (`st.error` + `st.stop`, so no chart is
produced); on success compose, sample both curves and select the y-range. -/
def appStep (text : String) (ts : TransformationSet) (xs : List ℚ) : AppOutcome :=
  match parse text with
  | .error e => .halted e
  | .ok base =>
    let g := transformed_expr base ts
    let yb := sample base xs
    let yt := sample g xs
    .rendered (render g) yb yt (compute_y_range yb yt)

/-! ## Helper lemmas -/

/-- Substituting the symbol by itself is the identity (sympy's
`expr.subs(x, x)` returns the expression unchanged). -/
theorem subs_var (e : Expr) : subs e Expr.var = e := by
  induction e <;> simp [subs, *]

/-- The left fold of `min` over a list picks an element of the list. -/
theorem foldl_min_mem (f : ℚ) (l : List ℚ) : l.foldl min f ∈ f :: l := by
  induction l generalizing f with
  | nil => simp
  | cons g t ih =>
    rcases List.mem_cons.mp (ih (min f g)) with h | h
    · rcases min_choice f g with hm | hm <;> rw [List.foldl_cons, h, hm] <;> simp
    · simp [List.foldl_cons, h]

/-- The left fold of `min` over a list bounds every element from below. -/
theorem foldl_min_le (f : ℚ) (l : List ℚ) : ∀ v ∈ f :: l, l.foldl min f ≤ v := by
  induction l generalizing f with
  | nil => simp
  | cons g t ih =>
    intro v hv
    simp only [List.foldl_cons]
    rcases List.mem_cons.mp hv with h | h
    · rw [h]
      exact le_trans (ih (min f g) _ (List.mem_cons_self _ _)) (min_le_left _ _)
    · rcases List.mem_cons.mp h with h2 | h2
      · rw [h2]
        exact le_trans (ih (min f g) _ (List.mem_cons_self _ _)) (min_le_right _ _)
      · exact ih (min f g) v (List.mem_cons_of_mem _ h2)

/-- The left fold of `max` over a list picks an element of the list. -/
theorem foldl_max_mem (f : ℚ) (l : List ℚ) : l.foldl max f ∈ f :: l := by
  induction l generalizing f with
  | nil => simp
  | cons g t ih =>
    rcases List.mem_cons.mp (ih (max f g)) with h | h
    · rcases max_choice f g with hm | hm <;> rw [List.foldl_cons, h, hm] <;> simp
    · simp [List.foldl_cons, h]

/-- The left fold of `max` over a list bounds every element from above. -/
theorem foldl_max_ge (f : ℚ) (l : List ℚ) : ∀ v ∈ f :: l, v ≤ l.foldl max f := by
  induction l generalizing f with
  | nil => simp
  | cons g t ih =>
    intro v hv
    simp only [List.foldl_cons]
    rcases List.mem_cons.mp hv with h | h
    · rw [h]
      exact le_trans (le_max_left _ _) (ih (max f g) _ (List.mem_cons_self _ _))
    · rcases List.mem_cons.mp h with h2 | h2
      · rw [h2]
        exact le_trans (le_max_right _ _) (ih (max f g) _ (List.mem_cons_self _ _))
      · exact ih (max f g) v (List.mem_cons_of_mem _ h2)

/-! ## Claims -/

/-- C1: with all six enable-flags false the Composer output is the base
expression unchanged, both as a symbolic expression and in displayed
form, with no residual artifacts. -/
theorem c1_identity_law (base : Expr) (ts : TransformationSet)
    (h1 : ts.apply_hshift = false) (h2 : ts.apply_hstretch = false)
    (h3 : ts.apply_reflect_y = false) (h4 : ts.apply_vstretch = false)
    (h5 : ts.apply_reflect_x = false) (h6 : ts.apply_vshift = false) :
    transformed_expr base ts = base ∧
    render (transformed_expr base ts) = render base := by
  have hin : input_expr ts = Expr.var := by
    simp [input_expr, h1, h2, h3]
  have hmain : transformed_expr base ts = base := by
    simp [transformed_expr, hin, subs_var, h4, h5, h6]
  exact ⟨hmain, by rw [hmain]⟩

/-- Witness for C1 at `f(x) = x**2` with every flag false. -/
theorem c1_identity_law_witness :
    transformed_expr (Expr.pow Expr.var (Expr.num 2))
        ⟨false, 0, false, 1, false, false, 0, false, 1, false⟩ =
      Expr.pow Expr.var (Expr.num 2) :=
  (c1_identity_law (Expr.pow Expr.var (Expr.num 2))
    ⟨false, 0, false, 1, false, false, 0, false, 1, false⟩
    rfl rfl rfl rfl rfl rfl).1

/-- C2: with horizontal shift and horizontal stretch enabled and
reflect-Y disabled, the substitution target behaves as `b*(x-h)` (shift
applied before stretch); structurally, sympy's automatic distribution of
the numeric coefficient over the sum makes line 63 build the tree
`b*x + b*(-h)`; concretely `f(x)=x`, `h=1`, `b=2` evaluates to `4` at
`x=3`, not `5`. -/
theorem c2_shift_before_stretch (ts : TransformationSet) (v : ℚ)
    (h1 : ts.apply_hshift = true) (h2 : ts.apply_hstretch = true)
    (h3 : ts.apply_reflect_y = false) :
    evalC (input_expr_float ts) v = some (ts.b * (v - ts.h), 0) ∧
    input_expr_float ts =
      Expr.add (Expr.mul (Expr.num ts.b) Expr.var) (Expr.num (ts.b * -ts.h)) ∧
    evalC (transformed_expr_float Expr.var
        ⟨true, 1, true, 2, false, false, 0, false, 1, false⟩) 3 = some (4, 0) ∧
    evalC (transformed_expr_float Expr.var
        ⟨true, 1, true, 2, false, false, 0, false, 1, false⟩) 3 ≠ some (5, 0) := by
  have hst : input_expr_float ts =
      Expr.add (Expr.mul (Expr.num ts.b) Expr.var) (Expr.num (ts.b * -ts.h)) := by
    simp [input_expr_float, h1, h2, h3, ssub_float, smul_float]
  refine ⟨?_, hst, by with_unfolding_all rfl, ?_⟩
  · rw [hst]
    simp [evalC]
    ring_nf
  · have h4 : evalC (transformed_expr_float Expr.var
        ⟨true, 1, true, 2, false, false, 0, false, 1, false⟩) 3 = some (4, 0) := by
      with_unfolding_all rfl
    rw [h4]
    simp

/-- Witness for C2 at `h=1`, `b=2`, `x=3`. -/
theorem c2_shift_before_stretch_witness :
    evalC (input_expr_float ⟨true, 1, true, 2, false, false, 0, false, 1, false⟩) 3 =
      some (2 * (3 - 1), 0) :=
  (c2_shift_before_stretch ⟨true, 1, true, 2, false, false, 0, false, 1, false⟩ 3
    rfl rfl rfl).1

/-- C3: with the three vertical transformations enabled and the
horizontal ones disabled, the Composer builds the explicit unsimplified
tree `(-1)*(a*f) + k` — vertical stretch, then reflect-over-X as a
product with `-1`, then vertical shift added last; concretely
`f(x)=x**2`, `a=2`, reflect-X, `k=3` gives `3` at `x=0` and `-5` at
`x=2`. -/
theorem c3_vertical_order (base : Expr) (ts : TransformationSet)
    (h1 : ts.apply_hshift = false) (h2 : ts.apply_hstretch = false)
    (h3 : ts.apply_reflect_y = false) (h4 : ts.apply_vstretch = true)
    (h5 : ts.apply_reflect_x = true) (h6 : ts.apply_vshift = true) :
    transformed_expr base ts =
      Expr.add (Expr.mul (Expr.num (-1)) (Expr.mul (Expr.num ts.a) base)) (Expr.num ts.k) ∧
    evalC (transformed_expr (Expr.pow Expr.var (Expr.num 2))
        ⟨false, 0, false, 1, false, true, 3, true, 2, true⟩) 0 = some (3, 0) ∧
    evalC (transformed_expr (Expr.pow Expr.var (Expr.num 2))
        ⟨false, 0, false, 1, false, true, 3, true, 2, true⟩) 2 = some (-5, 0) := by
  refine ⟨?_, by with_unfolding_all rfl, by with_unfolding_all rfl⟩
  have hin : input_expr ts = Expr.var := by
    simp [input_expr, h1, h2, h3]
  simp [transformed_expr, hin, subs_var, h4, h5, h6]

/-- Witness for C3 at `f(x)=x**2`, `a=2`, reflect-X, `k=3`. -/
theorem c3_vertical_order_witness :
    transformed_expr (Expr.pow Expr.var (Expr.num 2))
        ⟨false, 0, false, 1, false, true, 3, true, 2, true⟩ =
      Expr.add (Expr.mul (Expr.num (-1))
        (Expr.mul (Expr.num 2) (Expr.pow Expr.var (Expr.num 2)))) (Expr.num 3) :=
  (c3_vertical_order (Expr.pow Expr.var (Expr.num 2))
    ⟨false, 0, false, 1, false, true, 3, true, 2, true⟩
    rfl rfl rfl rfl rfl rfl).1

/-- Multiplying by the constant 1 leaves the evaluated value unchanged
(`1*z = z` componentwise, also through the non-finite tag). -/
theorem evalC_one_mul (e : Expr) (w : ℚ) :
    evalC (Expr.mul (Expr.num 1) e) w = evalC e w := by
  cases h : evalC e w with
  | none => simp [evalC, h]
  | some z => simp [evalC, h]

/-- Substituting the unfolded product `1*x` for the symbol leaves the
evaluated value unchanged at every grid point. -/
theorem evalC_subs_one_mul_var (base : Expr) (w : ℚ) :
    evalC (subs base (Expr.mul (Expr.num 1) Expr.var)) w = evalC base w := by
  induction base with
  | num q => rfl
  | I => rfl
  | var => simp [subs, evalC]
  | add e1 e2 ih1 ih2 => simp [subs, evalC, ih1, ih2]
  | mul e1 e2 ih1 ih2 => simp [subs, evalC, ih1, ih2]
  | pow e1 e2 ih1 ih2 => simp [subs, evalC, ih1, ih2]

/-- C4 (amended): enabling a stretch with its identity parameter value
is an identity contribution only numerically — with the slider's float
`b=1.0`, or with `a=1` wrapped by `sp.Mul(a, g, evaluate=False)`, the
resulting expression evaluates exactly like the disabled result at every
grid point — but it is not the same expression (see the
counterexample: `1.0*x` is substituted, or `1*f` is wrapped). -/
theorem c4_identity_stretch_value (base : Expr) (w : ℚ) :
    evalC (transformed_expr_float base
        ⟨false, 0, true, 1, false, false, 0, false, 1, false⟩) w = evalC base w ∧
    evalC (transformed_expr_float base
        ⟨false, 0, false, 1, false, false, 0, true, 1, false⟩) w = evalC base w := by
  constructor
  · show evalC (subs base (smul_float 1 Expr.var)) w = evalC base w
    exact evalC_subs_one_mul_var base w
  · show evalC (Expr.mul (Expr.num 1) (subs base Expr.var)) w = evalC base w
    rw [subs_var]
    exact evalC_one_mul base w

/-- C4 counterexample: with the slider's identity values, enabling
either stretch changes the expression and its displayed form.
Horizontal stretch at the float `b=1.0` substitutes the unfolded
`1.0*x` (sympy does not fold a Float coefficient), giving `(1.0*x)**2`;
vertical stretch at `a=1` wraps the unevaluated product `1*(x**2)`.
Both differ from the disabled result `x**2`. -/
theorem c4_identity_stretch_cex :
    transformed_expr_float (Expr.pow Expr.var (Expr.num 2))
        ⟨false, 0, true, 1, false, false, 0, false, 1, false⟩ ≠
      transformed_expr_float (Expr.pow Expr.var (Expr.num 2))
        ⟨false, 0, false, 1, false, false, 0, false, 1, false⟩ ∧
    render (transformed_expr_float (Expr.pow Expr.var (Expr.num 2))
        ⟨false, 0, true, 1, false, false, 0, false, 1, false⟩) ≠
      render (transformed_expr_float (Expr.pow Expr.var (Expr.num 2))
        ⟨false, 0, false, 1, false, false, 0, false, 1, false⟩) ∧
    transformed_expr_float (Expr.pow Expr.var (Expr.num 2))
        ⟨false, 0, false, 1, false, false, 0, true, 1, false⟩ ≠
      transformed_expr_float (Expr.pow Expr.var (Expr.num 2))
        ⟨false, 0, false, 1, false, false, 0, false, 1, false⟩ ∧
    render (transformed_expr_float (Expr.pow Expr.var (Expr.num 2))
        ⟨false, 0, false, 1, false, false, 0, true, 1, false⟩) ≠
      render (transformed_expr_float (Expr.pow Expr.var (Expr.num 2))
        ⟨false, 0, false, 1, false, false, 0, false, 1, false⟩) := by
  have hhon : transformed_expr_float (Expr.pow Expr.var (Expr.num 2))
      ⟨false, 0, true, 1, false, false, 0, false, 1, false⟩ =
      Expr.pow (Expr.mul (Expr.num 1) Expr.var) (Expr.num 2) := by
    with_unfolding_all rfl
  have hvon : transformed_expr_float (Expr.pow Expr.var (Expr.num 2))
      ⟨false, 0, false, 1, false, false, 0, true, 1, false⟩ =
      Expr.mul (Expr.num 1) (Expr.pow Expr.var (Expr.num 2)) := by
    with_unfolding_all rfl
  have hoff : transformed_expr_float (Expr.pow Expr.var (Expr.num 2))
      ⟨false, 0, false, 1, false, false, 0, false, 1, false⟩ =
      Expr.pow Expr.var (Expr.num 2) := by
    with_unfolding_all rfl
  have hr1 : render (Expr.pow (Expr.mul (Expr.num 1) Expr.var) (Expr.num 2)) =
      "((1*x)**2)" := by with_unfolding_all rfl
  have hr2 : render (Expr.mul (Expr.num 1) (Expr.pow Expr.var (Expr.num 2))) =
      "(1*(x**2))" := by with_unfolding_all rfl
  have hr3 : render (Expr.pow Expr.var (Expr.num 2)) = "(x**2)" := by
    with_unfolding_all rfl
  refine ⟨?_, ?_, ?_, ?_⟩
  · rw [hhon, hoff]; simp
  · rw [hhon, hoff, hr1, hr3]; decide
  · rw [hvon, hoff]; simp
  · rw [hvon, hoff, hr2, hr3]; decide

/-- C5: when at least one finite value remains, the Range Selector
returns the finite minimum and maximum padded by a tenth of the spread
(or by 1 when the spread is zero); concretely `[1,2,NaN]` and
`[0,5,Inf]` give `(-0.5, 5.5)`, and two series constant at 4 give
`(3, 5)`. -/
theorem c5_padded_range (sa sb : List NumVal) (hne : finite_y sa sb ≠ []) :
    (∃ ymin ymax : ℚ,
      ymin ∈ finite_y sa sb ∧ ymax ∈ finite_y sa sb ∧
      (∀ v ∈ finite_y sa sb, ymin ≤ v ∧ v ≤ ymax) ∧
      compute_y_range sa sb =
        (ymin - (if ymax ≠ ymin then (ymax - ymin) * (1 / 10) else 1),
         ymax + (if ymax ≠ ymin then (ymax - ymin) * (1 / 10) else 1))) ∧
    compute_y_range [some 1, some 2, none] [some 0, some 5, none] = (-(1 / 2), 11 / 2) ∧
    compute_y_range [some 4, some 4] [some 4, some 4] = (3, 5) := by
  refine ⟨?_, by with_unfolding_all rfl, by with_unfolding_all rfl⟩
  cases hfy : finite_y sa sb with
  | nil => exact absurd hfy hne
  | cons f rest =>
    refine ⟨rest.foldl min f, rest.foldl max f, ?_, ?_, ?_, ?_⟩
    · exact foldl_min_mem f rest
    · exact foldl_max_mem f rest
    · intro v hv
      exact ⟨foldl_min_le f rest v hv, foldl_max_ge f rest v hv⟩
    · simp only [compute_y_range, hfy]

/-- Witness for C5 at the series `[1,2,NaN]` and `[0,5,Inf]`. -/
theorem c5_padded_range_witness :
    ∃ ymin ymax : ℚ,
      ymin ∈ finite_y [some 1, some 2, none] [some 0, some 5, none] ∧
      ymax ∈ finite_y [some 1, some 2, none] [some 0, some 5, none] ∧
      (∀ v ∈ finite_y [some 1, some 2, none] [some 0, some 5, none],
        ymin ≤ v ∧ v ≤ ymax) ∧
      compute_y_range [some 1, some 2, none] [some 0, some 5, none] =
        (ymin - (if ymax ≠ ymin then (ymax - ymin) * (1 / 10) else 1),
         ymax + (if ymax ≠ ymin then (ymax - ymin) * (1 / 10) else 1)) :=
  (c5_padded_range [some 1, some 2, none] [some 0, some 5, none]
    (by simp [finite_y])).1

/-- C6: when every sampled value of both series is non-finite, the Range
Selector returns the fixed fallback range `(-20, 20)`. -/
theorem c6_nonfinite_fallback (sa sb : List NumVal) (h : ∀ v ∈ sa ++ sb, v = none) :
    compute_y_range sa sb = (-20, 20) := by
  have hfy : finite_y sa sb = [] := by
    rw [finite_y, List.filterMap_eq_nil_iff]
    intro a ha
    exact h a ha
  simp only [compute_y_range, hfy]

/-- Witness for C6 at two all-non-finite series. -/
theorem c6_nonfinite_fallback_witness :
    compute_y_range [none] [none, none] = (-20, 20) :=
  c6_nonfinite_fallback [none] [none, none] (by decide)

/-- C7: sampling is a total function (no grid point raises): sampling
`1/x` (sympy: `x**(-1)`) over any grid yields a full series, the entry at
a grid point `x=0` is the non-finite tag, a non-finite entry is invisible
to the Range Selector, and a complex-valued result is reduced to its real
component (a term `2*I` contributes nothing) rather than erroring. -/
theorem c7_sampler_safety (xs : List ℚ) (i : Nat) (l1 l2 sb : List NumVal) :
    (sample (Expr.pow Expr.var (Expr.num (-1))) xs).length = xs.length ∧
    (xs[i]? = some 0 →
      (sample (Expr.pow Expr.var (Expr.num (-1))) xs)[i]? = some none) ∧
    compute_y_range (l1 ++ none :: l2) sb = compute_y_range (l1 ++ l2) sb ∧
    sample (Expr.add Expr.var (Expr.mul (Expr.num 2) Expr.I)) xs = sample Expr.var xs := by
  refine ⟨by simp [sample], ?_, ?_, ?_⟩
  · intro h
    have hz : (evalC (Expr.pow Expr.var (Expr.num (-1))) 0).map Prod.fst = none := by
      with_unfolding_all rfl
    simp only [sample, List.getElem?_map, h, Option.map_some']
    rw [hz]
  · have hfy : finite_y (l1 ++ none :: l2) sb = finite_y (l1 ++ l2) sb := by
      simp [finite_y]
    unfold compute_y_range
    rw [hfy]
  · simp only [sample]
    congr 1
    funext v
    norm_num [evalC]

/-- Witness for C7 on the grid `[1, 0, 2]`. -/
theorem c7_sampler_safety_witness :
    (sample (Expr.pow Expr.var (Expr.num (-1))) [1, 0, 2])[1]? = some none :=
  (c7_sampler_safety [1, 0, 2] 1 [] [] []).2.1 (by with_unfolding_all rfl)

/-- C8: a parse failure is caught at the boundary and halts the
interaction with a visible error and no chart, while a parse success
proceeds to the full pipeline; the modelled parser accepts `x**2` and
fails on malformed text (`x +`) and on an unknown symbol (`y + 1`). -/
theorem c8_parse_boundary (text : String) (ts : TransformationSet) (xs : List ℚ) :
    (∀ e, parse text = .error e → appStep text ts xs = .halted e) ∧
    (∀ base, parse text = .ok base →
      appStep text ts xs = .rendered (render (transformed_expr base ts))
        (sample base xs) (sample (transformed_expr base ts) xs)
        (compute_y_range (sample base xs) (sample (transformed_expr base ts) xs))) ∧
    parse "x**2" = .ok (Expr.pow Expr.var (Expr.num 2)) ∧
    parse "x +" = .error .invalid ∧
    parse "y + 1" = .error (.unknownSymbol "y") := by
  refine ⟨?_, ?_, by with_unfolding_all rfl, by with_unfolding_all rfl,
    by with_unfolding_all rfl⟩
  · intro e h
    simp [appStep, h]
  · intro base h
    simp [appStep, h]

/-- Witness for C8 at the unknown-symbol input `y + 1`. -/
theorem c8_parse_boundary_witness :
    appStep "y + 1" ⟨false, 0, false, 1, false, false, 0, false, 1, false⟩ [] =
      .halted (.unknownSymbol "y") :=
  (c8_parse_boundary "y + 1" ⟨false, 0, false, 1, false, false, 0, false, 1, false⟩ []).1
    (.unknownSymbol "y") (by with_unfolding_all rfl)

/-- C9 (amended): the challenge expression equals the Composer output on
the same base where each transformation is enabled exactly when its
drawn value differs from that transformation's identity value. -/
theorem c9_challenge_reuses_composer (base : Expr) (p : ChallengeParameters) :
    challenge_expr base p = transformed_expr base (challenge_ts p) := by
  by_cases h1 : p.true_h = 0 <;> by_cases h2 : p.true_b = 1 <;>
    by_cases h3 : p.true_a = 1 <;> by_cases h4 : p.true_k = 0 <;>
      simp [challenge_expr, transformed_expr, challenge_input, input_expr, challenge_ts,
        decide_eq_true_eq, h1, h2, h3, h4]

/-- C9 counterexample: with the legal draw `h=0, k=0, a=1, b=1`, no
reflections, and base `x**2`, the challenge expression is `x**2` while
the Composer with all six transformations enabled builds the unevaluated
`1*(x**2) + 0` — the two are different expressions. -/
theorem c9_all_enabled_cex :
    challenge_expr (Expr.pow Expr.var (Expr.num 2)) ⟨0, 0, 1, 1, false, false⟩ ≠
      transformed_expr (Expr.pow Expr.var (Expr.num 2))
        (all_enabled_ts ⟨0, 0, 1, 1, false, false⟩) := by
  have hch : challenge_expr (Expr.pow Expr.var (Expr.num 2)) ⟨0, 0, 1, 1, false, false⟩ =
      Expr.pow Expr.var (Expr.num 2) := by
    with_unfolding_all rfl
  have hco : transformed_expr (Expr.pow Expr.var (Expr.num 2))
      (all_enabled_ts ⟨0, 0, 1, 1, false, false⟩) =
      Expr.add (Expr.mul (Expr.num 1) (Expr.pow Expr.var (Expr.num 2))) (Expr.num 0) := by
    with_unfolding_all rfl
  rw [hch, hco]
  simp

/-- C10: composing never mutates the base expression: the plotted base
series is sampled from the original base expression and is the same for
every transformation set. -/
theorem c10_base_immutable (base : Expr) (ts1 ts2 : TransformationSet) (xs : List ℚ) :
    (plot_series base ts1 xs).1 = sample base xs ∧
    (plot_series base ts1 xs).1 = (plot_series base ts2 xs).1 :=
  ⟨rfl, rfl⟩

end TFunction
